import Mathlib

/-!
Verification of the paper-digest candidate selection and deduplication
pipeline: query construction (`config_loader.get_arxiv_query`), recency
filtering (`arxiv_fetcher.ArxivFetcher.filter_by_date`), identifier
normalization (`arxiv_fetcher.Paper.from_entry`), the persistent seen
ledger (`history_manager.HistoryManager`), and the orchestration failure
path (`main.main` with `claude_runner.ClaudeRunner.run`).

Python strings are modelled as Lean `String`s; the Python string methods
the code uses (`str.split`, `str.rsplit`, `str.replace`, `str.strip`,
substring membership) are embedded as structurally recursive functions
over `List Char` so that every definition evaluates by kernel reduction.
Wall-clock instants are modelled as `Int` seconds (one day = 86400), and
the standard library's datetime parsing is abstracted as an explicit
parse function passed to each definition that uses it; where Python's
`datetime` distinguishes timezone-aware from naive values the parse
function returns the flag alongside the instant.
-/

namespace PaperDigest

/-- Embedding of Python's `str.split(sep)` scan (non-overlapping, left to
right), structurally recursive on a fuel argument; callers pass the
length of the list as fuel, which always suffices. -/
def pySplitGo (sep : List Char) (fuel : Nat) (l : List Char) : List (List Char) :=
  match fuel, l with
  | _, [] => [[]]
  | 0, l => [l]
  | fuel + 1, c :: cs =>
    if sep.isPrefixOf (c :: cs) then
      [] :: pySplitGo sep fuel ((c :: cs).drop sep.length)
    else
      match pySplitGo sep fuel cs with
      | [] => [[c]]
      | h :: t => (c :: h) :: t

/-- Embedding of Python's `s.split(sep)` for a non-empty separator. -/
def pySplit (sep s : String) : List (List Char) :=
  pySplitGo sep.data s.data.length s.data

/-- Embedding of Python's `str.replace(pat, rep)` (all non-overlapping
occurrences, left to right), fuel-structural like `pySplitGo`. -/
def pyReplaceGo (pat rep : List Char) (fuel : Nat) (l : List Char) : List Char :=
  match fuel, l with
  | _, [] => []
  | 0, l => l
  | fuel + 1, c :: cs =>
    if pat.isPrefixOf (c :: cs) then
      rep ++ pyReplaceGo pat rep fuel ((c :: cs).drop pat.length)
    else
      c :: pyReplaceGo pat rep fuel cs

/-- Embedding of Python's `s.replace(pat, rep)`. -/
def pyReplace (pat rep s : String) : String :=
  String.mk (pyReplaceGo pat.data rep.data s.data.length s.data)

/-- Whitespace predicate for Python's `str.strip()`. -/
def pyIsSpace (c : Char) : Bool :=
  c = ' ' || c = '\t' || c = '\n' || c = '\r'

/-- Embedding of Python's `s.strip()`. -/
def pyStrip (s : String) : String :=
  String.mk (((s.data.dropWhile pyIsSpace).reverse.dropWhile pyIsSpace).reverse)

/-- The characters of an identifier strictly before its last `'v'`;
a list containing no `'v'` is returned unchanged.  This is the
`arxiv_id.rsplit("v", 1)[0]` step of `Paper.from_entry`
(src/arxiv_fetcher.py lines 40-41). -/
def beforeLastV : List Char → List Char
  | [] => []
  | c :: cs =>
    if 'v' ∈ cs then c :: beforeLastV cs
    else if c = 'v' then []
    else c :: beforeLastV cs

/-- Identifier extraction of `Paper.from_entry` (src/arxiv_fetcher.py
lines 36-41): take the part of `entry.id` after `"/abs/"`
(`entry.id.split("/abs/")[-1]`), then, when a `'v'` occurs in it, drop
everything from the last `'v'` on (`rsplit("v", 1)[0]`). -/
def extract_arxiv_id (entryId : String) : String :=
  let raw := (pySplit ("/abs/") entryId).getLastD []
  if 'v' ∈ raw then String.mk (beforeLastV raw) else String.mk raw

/-- Paper value object (src/arxiv_fetcher.py lines 14-26). -/
structure Paper where
  arxiv_id : String
  title : String
  authors : List String
  abstract : String
  categories : List String
  published : String
  updated : String
  arxiv_url : String
  pdf_url : String
deriving DecidableEq

/-- The fields of a feedparser entry that `Paper.from_entry` reads. -/
structure FeedEntry where
  id : String
  title : String
  summary : String
  published : String
  updated : String
  authors : List String
  tags : List String
deriving DecidableEq

/-- Embedding of Paper.from_entry (src/arxiv_fetcher.py lines 32-71). -/
def from_entry (e : FeedEntry) : Paper :=
  { arxiv_id := extract_arxiv_id e.id
    title := pyStrip (pyReplace ("\n") (" ") e.title)
    authors := e.authors
    abstract := pyStrip (pyReplace ("\n") (" ") e.summary)
    categories := e.tags
    published := e.published
    updated := e.updated
    arxiv_url := e.id
    pdf_url := pyReplace ("/abs/") ("/pdf/") e.id ++ ".pdf" }

/-- Separator-joining step of Python's `" OR ".join` / `" AND ".join`. -/
def joinSep (sep : String) : List String → String
  | [] => ""
  | [s] => s
  | s :: rest => s ++ sep ++ joinSep sep rest

/-- Keyword terms of `get_arxiv_query` (src/config_loader.py lines
130-139): per keyword a title-field term then an abstract-field term,
quoting keywords that contain a space. -/
def keyword_terms (keywords : List String) : List String :=
  keywords.flatMap fun kw =>
    if ' ' ∈ kw.data then
      ["ti:\"" ++ kw ++ "\"", "abs:\"" ++ kw ++ "\""]
    else
      ["ti:" ++ kw, "abs:" ++ kw]

/-- Embedding of `get_arxiv_query` (src/config_loader.py lines 101-149):
build the parenthesized category disjunction and the parenthesized
keyword disjunction, join the present groups with `" AND "`, and fall
back to the fixed query `"cat:cs.LG"` when both inputs are empty. -/
def get_arxiv_query (categories keywords : List String) : String :=
  let query_parts : List String :=
    (if categories ≠ [] then
      ["(" ++ joinSep (" OR ") (categories.map fun cat => "cat:" ++ cat) ++ ")"]
    else []) ++
    (if keywords ≠ [] then
      ["(" ++ joinSep (" OR ") (keyword_terms keywords) ++ ")"]
    else [])
  if 1 < query_parts.length then joinSep (" AND ") query_parts
  else
    match query_parts with
    | [q] => q
    | _ => "cat:cs.LG"

/-- One ledger entry, the value stored under a paper id in the history
file's papers mapping (src/history_manager.py lines 65-68).  The
seen_at field is `none` when the key is absent from the stored record
(Python would raise `KeyError` on access, caught in cleanup). -/
structure LedgerEntry where
  title : String
  seen_at : Option String
deriving DecidableEq

/-- The papers mapping of the history file: a key-ordered association
list modelling a Python dict (insertion order, unique keys). -/
abbrev HistPapers := List (String × LedgerEntry)

/-- Embedding of HistoryManager.is_seen (src/history_manager.py lines
45-55): membership of the id among the keys of the papers mapping. -/
def is_seen (papers : HistPapers) (arxiv_id : String) : Bool :=
  papers.any fun e => e.1 == arxiv_id

/-- Python dict assignment `papers[id] = entry`: overwrite in place when
the key is present, append otherwise. -/
def dictInsert (papers : HistPapers) (arxiv_id : String) (entry : LedgerEntry) : HistPapers :=
  if is_seen papers arxiv_id then
    papers.map fun e => if e.1 == arxiv_id then (arxiv_id, entry) else e
  else
    papers ++ [(arxiv_id, entry)]

/-- Embedding of HistoryManager.mark_seen (src/history_manager.py lines
57-69): upsert the entry with the given title and the current time as
seen_at (the subsequent save is modelled by the caller where a claim
needs it). -/
def mark_seen (papers : HistPapers) (arxiv_id title now : String) : HistPapers :=
  dictInsert papers arxiv_id { title := title, seen_at := some now }

/-- Embedding of HistoryManager.mark_multiple_seen (src/history_manager.py
lines 71-90): upsert each (arxiv_id, title) pair with one shared
timestamp, skipping pairs whose id is empty, then save once. -/
def mark_multiple_seen (papers : HistPapers)
    (entries : List (String × String)) (now : String) : HistPapers :=
  entries.foldl
    (fun acc e =>
      if e.1 ≠ "" then dictInsert acc e.1 { title := e.2, seen_at := some now } else acc)
    papers

/-- Embedding of HistoryManager.filter_unseen (src/history_manager.py
lines 92-102): keep exactly the papers whose arxiv_id is not seen. -/
def filter_unseen (papers : HistPapers) (candidates : List Paper) : List Paper :=
  candidates.filter fun p => !(is_seen papers p.arxiv_id)

/-- Number of seconds in a day, the unit behind `timedelta(days=n)`. -/
def secondsPerDay : Int := 86400

/-- One iteration of the cleanup loop of cleanup_old_entries
(src/history_manager.py lines 118-124).  `parse` models
`datetime.fromisoformat` on the stored seen_at string: `none` is a
`ValueError`, `some (t, aware)` a successful parse with `aware`
recording whether the value carries timezone information.  A missing
seen_at (`KeyError`) or a failed parse is caught by the
`except (KeyError, ValueError)` clause and the entry is skipped.  The
cutoff `datetime.now() - timedelta(...)` is timezone-naive, so when
seen_at parses to an aware value the comparison `seen_at < cutoff`
raises `TypeError`, which that clause does not catch: modelled as
`Except.error ()`.  Otherwise the result says whether the entry is
scheduled for removal (parsed instant strictly before the cutoff). -/
def entry_check (parse : String → Option (Int × Bool)) (cutoff : Int)
    (e : LedgerEntry) : Except Unit Bool :=
  match e.seen_at with
  | none => .ok false
  | some s =>
    match parse s with
    | none => .ok false
    | some (t, aware) =>
      if aware then .error ()
      else .ok (decide (t < cutoff))

/-- The cleanup loop of cleanup_old_entries (src/history_manager.py
lines 117-124): the keys of the entries to remove, in iteration order,
or the uncaught `TypeError` of the first offending entry. -/
def collect_stale (parse : String → Option (Int × Bool)) (cutoff : Int) :
    HistPapers → Except Unit (List String)
  | [] => .ok []
  | e :: rest =>
    match entry_check parse cutoff e.2 with
    | .error u => .error u
    | .ok b =>
      match collect_stale parse cutoff rest with
      | .error u => .error u
      | .ok ids => .ok (if b then e.1 :: ids else ids)

/-- The removal condition of the cleanup loop on the runs where every
comparison succeeds: the entry has a seen_at field that parses to a
naive instant strictly before the cutoff. -/
def entry_stale (parse : String → Option (Int × Bool)) (cutoff : Int)
    (e : LedgerEntry) : Bool :=
  match e.seen_at with
  | some s =>
    match parse s with
    | some (t, false) => decide (t < cutoff)
    | _ => false
  | none => false

/-- Embedding of HistoryManager.cleanup_old_entries
(src/history_manager.py lines 104-132): when retention is positive,
collect the keys of stale entries, delete them from the mapping, save
when at least one was collected, and return how many; when retention is
non-positive do nothing.  Returns (new mapping, removed count, whether
the ledger was persisted), or propagates the loop's uncaught
`TypeError`. -/
def cleanup_old_entries (parse : String → Option (Int × Bool)) (now : Int)
    (retention_days : Int) (papers : HistPapers) :
    Except Unit (HistPapers × Nat × Bool) :=
  if retention_days ≤ 0 then .ok (papers, 0, false)
  else
    match collect_stale parse (now - retention_days * secondsPerDay) papers with
    | .error u => .error u
    | .ok to_remove =>
      .ok (papers.filter fun e => !(to_remove.contains e.1), to_remove.length,
        !(to_remove.isEmpty))

/-- The history record: the papers mapping plus last_updated
(src/history_manager.py line 33). -/
structure HistData where
  papers : HistPapers
  last_updated : Option String
deriving DecidableEq

/-- The empty ledger that a missing or corrupt history file yields
(src/history_manager.py line 33). -/
def emptyHist : HistData := { papers := [], last_updated := none }

/-- Embedding of HistoryManager._load (src/history_manager.py lines
24-33): `content` is the history file's text when it exists (`none`
models a missing file), `parseJson` models `json.load` (`none` models
`JSONDecodeError`); any failure yields the empty ledger. -/
def history_load (parseJson : String → Option HistData) (content : Option String) : HistData :=
  match content with
  | none => emptyHist
  | some s =>
    match parseJson s with
    | some d => d
    | none => emptyHist

/-- Loop of ArxivFetcher.filter_by_date (src/arxiv_fetcher.py lines
156-168).  `parse` models `datetime.fromisoformat` on the
Z-normalized published string: `none` is a `ValueError` (caught, the
paper is kept), `some (t, aware)` is a successful parse with `aware`
recording whether the value carries timezone information.  Comparing a
naive parsed value with the timezone-aware cutoff raises `TypeError`,
which the `except (ValueError, AttributeError)` clause does not catch,
so the whole call fails: modelled as `Except.error ()`. -/
def filter_by_date_go (parse : String → Option (Int × Bool)) (cutoff : Int) :
    List Paper → Except Unit (List Paper)
  | [] => .ok []
  | p :: ps =>
    match parse (pyReplace ("Z") ("+00:00") p.published) with
    | none =>
      match filter_by_date_go parse cutoff ps with
      | .ok r => .ok (p :: r)
      | .error e => .error e
    | some (t, aware) =>
      if aware then
        if cutoff ≤ t then
          match filter_by_date_go parse cutoff ps with
          | .ok r => .ok (p :: r)
          | .error e => .error e
        else filter_by_date_go parse cutoff ps
      else .error ()

/-- Embedding of ArxivFetcher.filter_by_date (src/arxiv_fetcher.py lines
135-170): identity when `days <= 0`, otherwise the loop above against
the cutoff `now - timedelta(days=days)`. -/
def filter_by_date (parse : String → Option (Int × Bool)) (now days : Int)
    (papers : List Paper) : Except Unit (List Paper) :=
  if days ≤ 0 then .ok papers
  else filter_by_date_go parse (now - days * secondsPerDay) papers

/-- Outcome of the `subprocess.run` call in ClaudeRunner.run
(src/claude_runner.py lines 142-166): completion with a return code,
`subprocess.TimeoutExpired`, `FileNotFoundError` (CLI missing), or any
other exception. -/
inductive CliResult where
  | completed (returncode : Int)
  | timedOut
  | notFound
  | otherError
deriving DecidableEq

/-- Embedding of ClaudeRunner.run (src/claude_runner.py lines 109-171):
a non-zero return code, a timeout, a missing CLI, or any other
exception yields `(false, [])`; on success the ids extracted from the
output file are returned with `true`. -/
def claude_run (res : CliResult) (extracted_ids : List String) : Bool × List String :=
  match res with
  | .completed rc => if rc ≠ 0 then (false, []) else (true, extracted_ids)
  | .timedOut => (false, [])
  | .notFound => (false, [])
  | .otherError => (false, [])

/-- Tail of main after `runner.run()` (src/main.py lines 120-173): on
failure notify and exit 1 without touching the history; on success mark
the selected unseen papers seen (when any ids were selected) and exit
0.  Returns (exit code, history papers mapping after the run). -/
def main_after_run (run_result : Bool × List String) (unseen_papers : List Paper)
    (papers : HistPapers) (now : String) : Int × HistPapers :=
  if !run_result.1 then (1, papers)
  else
    let selected_ids := run_result.2
    if selected_ids.isEmpty then (0, papers)
    else
      let papers_to_mark := (unseen_papers.filter fun p => selected_ids.contains p.arxiv_id).map
        fun p => (p.arxiv_id, p.title)
      (0, mark_multiple_seen papers papers_to_mark now)

/-! Helper lemmas. -/

lemma beforeLastV_append (b n : List Char) (h : 'v' ∉ n) :
    beforeLastV (b ++ 'v' :: n) = b := by
  induction b with
  | nil =>
    simp [beforeLastV, h]
  | cons c b ih =>
    have hv : 'v' ∈ b ++ 'v' :: n := by simp
    simp [beforeLastV, hv, ih]

lemma beforeLastV_of_not_mem (l : List Char) (h : 'v' ∉ l) :
    beforeLastV l = l := by
  induction l with
  | nil => rfl
  | cons c cs ih =>
    have hc : c ≠ 'v' := fun hc => h (hc ▸ List.mem_cons_self c cs)
    have hcs : 'v' ∉ cs := fun hm => h (List.mem_cons_of_mem c hm)
    simp [beforeLastV, hcs, hc, ih hcs]

lemma extract_arxiv_id_last_v (entryId : String) (l1 l2 : List Char)
    (hsplit : (pySplit ("/abs/") entryId).getLastD [] = l1 ++ 'v' :: l2)
    (hl2 : 'v' ∉ l2) :
    extract_arxiv_id entryId = String.mk l1 := by
  have hv : 'v' ∈ l1 ++ 'v' :: l2 := by simp
  simp only [extract_arxiv_id, hsplit, if_pos hv, beforeLastV_append l1 l2 hl2]

/-- C4: the query builder returns exactly the parenthesized category
group for categories `["cs.LG"]` and no keywords; the parenthesized
disjunction of the quoted title and abstract phrase terms for the single
multi-word keyword `"large language model"`; the two groups joined by
`" AND "` when both are present; and the fixed fallback `"cat:cs.LG"`
when both inputs are empty. -/
theorem claim_C4_query_composition :
    get_arxiv_query ["cs.LG"] [] = "(cat:cs.LG)" ∧
    get_arxiv_query [] ["large language model"] =
      "(ti:\"large language model\" OR abs:\"large language model\")" ∧
    get_arxiv_query ["cs.LG"] ["llm"] = "(cat:cs.LG) AND (ti:llm OR abs:llm)" ∧
    get_arxiv_query [] [] = "cat:cs.LG" := by
  refine ⟨?_, ?_, ?_, ?_⟩ <;> decide

/-- C10: identifier normalization truncates at the last `'v'`: whenever
the part of the entry id after `"/abs/"` decomposes as `l1 ++ 'v' :: l2`
with no `'v'` in `l2` (so that `'v'` is its last occurrence — it need
not begin a trailing version suffix), everything from that `'v'` on is
dropped, and an identifier containing no `'v'` is kept unchanged. -/
theorem claim_C10_truncates_at_last_v :
    (∀ (entryId : String) (l1 l2 : List Char),
        (pySplit ("/abs/") entryId).getLastD [] = l1 ++ 'v' :: l2 → 'v' ∉ l2 →
        extract_arxiv_id entryId = String.mk l1) ∧
    (∀ (entryId : String) (l : List Char),
        (pySplit ("/abs/") entryId).getLastD [] = l → 'v' ∉ l →
        extract_arxiv_id entryId = String.mk l) := by
  constructor
  · exact fun entryId l1 l2 hs hv => extract_arxiv_id_last_v entryId l1 l2 hs hv
  · intro entryId l hs hv
    simp only [extract_arxiv_id]
    rw [hs, if_neg hv]

/-- Concrete feed entry for revision 1 of a paper. -/
def entryV1 : FeedEntry :=
  { id := "http://arxiv.org/abs/2401.12345v1", title := "A Paper", summary := "S"
    published := "2024-01-15T12:34:56Z", updated := "2024-01-16T12:34:56Z"
    authors := ["A"], tags := ["cs.LG"] }

/-- Concrete feed entry for revision 2 of the same paper. -/
def entryV2 : FeedEntry :=
  { id := "http://arxiv.org/abs/2401.12345v2", title := "A Paper (revised)", summary := "S2"
    published := "2024-01-15T12:34:56Z", updated := "2024-02-16T12:34:56Z"
    authors := ["A"], tags := ["cs.LG"] }

/-- C10 witness: the identifier `"2401.12345v1"` truncates to
`"2401.12345"`, and the v-free identifier `"hep-th.9901001"` is kept. -/
theorem claim_C10_witness :
    extract_arxiv_id ("http://arxiv.org/abs/2401.12345v1") = String.mk ("2401.12345").data ∧
    extract_arxiv_id ("http://arxiv.org/abs/hep-th.9901001") =
      String.mk ("hep-th.9901001").data :=
  ⟨claim_C10_truncates_at_last_v.1 ("http://arxiv.org/abs/2401.12345v1")
      (("2401.12345").data) (("1").data) (by decide) (by decide),
    claim_C10_truncates_at_last_v.2 ("http://arxiv.org/abs/hep-th.9901001")
      (("hep-th.9901001").data) (by decide) (by decide)⟩

/-- C5: two catalog entries whose identifiers (the part after `"/abs/"`)
share a base and differ only in the trailing revision suffix after the
final `'v'` are assigned the same arxiv_id by from_entry. -/
theorem claim_C5_revisions_collapse (e1 e2 : FeedEntry) (base n1 n2 : List Char)
    (h1 : (pySplit ("/abs/") e1.id).getLastD [] = base ++ 'v' :: n1)
    (h2 : (pySplit ("/abs/") e2.id).getLastD [] = base ++ 'v' :: n2)
    (hn1 : 'v' ∉ n1) (hn2 : 'v' ∉ n2) :
    (from_entry e1).arxiv_id = (from_entry e2).arxiv_id := by
  show extract_arxiv_id e1.id = extract_arxiv_id e2.id
  rw [extract_arxiv_id_last_v e1.id base n1 h1 hn1,
    extract_arxiv_id_last_v e2.id base n2 h2 hn2]

/-- C5 witness: the v1 and v2 revisions of `2401.12345` collapse to one
arxiv_id. -/
theorem claim_C5_witness :
    (from_entry entryV1).arxiv_id = (from_entry entryV2).arxiv_id :=
  claim_C5_revisions_collapse entryV1 entryV2 (("2401.12345").data) (("1").data)
    (("2").data) (by decide) (by decide) (by decide) (by decide)

/-- Repetition of mark_seen on one id with varying titles/timestamps. -/
def mark_seen_repeat (papers : HistPapers) (arxiv_id : String)
    (reps : List (String × String)) : HistPapers :=
  reps.foldl (fun s r => mark_seen s arxiv_id r.1 r.2) papers

lemma is_seen_dictInsert_of_seen (papers : HistPapers) (arxiv_id : String) (e : LedgerEntry)
    (h : is_seen papers arxiv_id = true) (id' : String) :
    is_seen (dictInsert papers arxiv_id e) id' = is_seen papers id' := by
  have hp : (fun x : String × LedgerEntry =>
        ((if x.1 == arxiv_id then (arxiv_id, e) else x).1 == id'))
      = fun x : String × LedgerEntry => (x.1 == id') := by
    funext x
    by_cases hb : x.1 = arxiv_id
    · simp [hb]
    · simp [hb]
  simp only [dictInsert]
  rw [if_pos h]
  simp only [is_seen, List.any_map, Function.comp_def]
  rw [hp]

lemma is_seen_dictInsert_self (papers : HistPapers) (arxiv_id : String) (e : LedgerEntry) :
    is_seen (dictInsert papers arxiv_id e) arxiv_id = true := by
  by_cases h : is_seen papers arxiv_id = true
  · rw [is_seen_dictInsert_of_seen papers arxiv_id e h]
    exact h
  · simp only [dictInsert]
    rw [if_neg h]
    simp [is_seen, List.any_append]

lemma filter_unseen_all_ne (papers : HistPapers) (arxiv_id : String)
    (h : is_seen papers arxiv_id = true) (candidates : List Paper) :
    ((filter_unseen papers candidates).all fun p => !(p.arxiv_id == arxiv_id)) = true := by
  simp only [filter_unseen, List.all_eq_true, List.mem_filter]
  rintro p ⟨-, hp⟩
  by_cases he : p.arxiv_id = arxiv_id
  · rw [he, h] at hp
    cases hp
  · simp [he]

lemma is_seen_mark_seen_repeat (arxiv_id : String) (reps : List (String × String))
    (base : HistPapers) (h : is_seen base arxiv_id = true) (id' : String) :
    is_seen (mark_seen_repeat base arxiv_id reps) id' = is_seen base id' := by
  induction reps generalizing base with
  | nil => rfl
  | cons r rs ih =>
    have h1 : ∀ id'', is_seen (mark_seen base arxiv_id r.1 r.2) id'' = is_seen base id'' := by
      intro id''
      simp only [mark_seen]
      exact is_seen_dictInsert_of_seen base arxiv_id _ h id''
    show is_seen (mark_seen_repeat (mark_seen base arxiv_id r.1 r.2) arxiv_id rs) id' = _
    rw [ih (mark_seen base arxiv_id r.1 r.2) (by rw [h1]; exact h), h1]

/-- C1: after mark_seen, the id is seen, filter_unseen excludes every
paper carrying that arxiv_id, and any number of repetitions of
mark_seen on the same id leaves membership (is_seen, for every id)
exactly as after the first call. -/
theorem claim_C1_mark_seen_idempotent (papers : HistPapers) (arxiv_id title now : String)
    (reps : List (String × String)) (candidates : List Paper) :
    is_seen (mark_seen_repeat (mark_seen papers arxiv_id title now) arxiv_id reps)
      arxiv_id = true ∧
    ((filter_unseen (mark_seen_repeat (mark_seen papers arxiv_id title now) arxiv_id reps)
        candidates).all fun p => !(p.arxiv_id == arxiv_id)) = true ∧
    ∀ id', is_seen (mark_seen_repeat (mark_seen papers arxiv_id title now) arxiv_id reps) id'
      = is_seen (mark_seen papers arxiv_id title now) id' := by
  have h0 : is_seen (mark_seen papers arxiv_id title now) arxiv_id = true := by
    simp only [mark_seen]
    exact is_seen_dictInsert_self papers arxiv_id _
  have hfold := is_seen_mark_seen_repeat arxiv_id reps _ h0
  exact ⟨by rw [hfold]; exact h0,
    filter_unseen_all_ne _ _ (by rw [hfold]; exact h0) _, hfold⟩

lemma filter_by_date_go_sublist (parse : String → Option (Int × Bool)) (cutoff : Int) :
    ∀ (ps out : List Paper), filter_by_date_go parse cutoff ps = .ok out →
      out.Sublist ps := by
  intro ps
  induction ps with
  | nil =>
    intro out h
    simp only [filter_by_date_go] at h
    injection h with h'
    subst h'
    exact List.nil_sublist []
  | cons p ps ih =>
    intro out h
    cases hp : parse (pyReplace ("Z") ("+00:00") p.published) with
    | none =>
      simp only [filter_by_date_go, hp] at h
      cases hr : filter_by_date_go parse cutoff ps with
      | error e =>
        rw [hr] at h
        exact absurd h (by simp)
      | ok r =>
        rw [hr] at h
        injection h with h'
        subst h'
        exact List.Sublist.cons₂ p (ih r hr)
    | some tb =>
      obtain ⟨t, aware⟩ := tb
      simp only [filter_by_date_go, hp] at h
      cases aware with
      | false => exact absurd h (by simp)
      | true =>
        simp only [if_true] at h
        by_cases hct : cutoff ≤ t
        · rw [if_pos hct] at h
          cases hr : filter_by_date_go parse cutoff ps with
          | error e =>
            rw [hr] at h
            exact absurd h (by simp)
          | ok r =>
            rw [hr] at h
            injection h with h'
            subst h'
            exact List.Sublist.cons₂ p (ih r hr)
        · rw [if_neg hct] at h
          exact List.Sublist.cons p (ih out h)

lemma filter_by_date_go_spec (parse : String → Option (Int × Bool)) (cutoff : Int) :
    ∀ (ps out : List Paper), filter_by_date_go parse cutoff ps = .ok out →
    ∀ p ∈ ps,
      (parse (pyReplace ("Z") ("+00:00") p.published) = none → p ∈ out) ∧
      (∀ t, parse (pyReplace ("Z") ("+00:00") p.published) = some (t, true) →
        t < cutoff → p ∉ out) := by
  intro ps
  induction ps with
  | nil =>
    intro out _ p hp
    cases hp
  | cons q ps ih =>
    intro out h p hmem
    cases hq : parse (pyReplace ("Z") ("+00:00") q.published) with
    | none =>
      simp only [filter_by_date_go, hq] at h
      cases hr : filter_by_date_go parse cutoff ps with
      | error e =>
        rw [hr] at h
        exact absurd h (by simp)
      | ok r =>
        rw [hr] at h
        injection h with h'
        subst h'
        rcases List.mem_cons.mp hmem with hpq | hps
        · subst hpq
          refine ⟨fun _ => List.mem_cons_self p r, fun t hsome _ => ?_⟩
          rw [hq] at hsome
          cases hsome
        · refine ⟨fun hn => List.mem_cons_of_mem q ((ih r hr p hps).1 hn), fun t hsome hlt => ?_⟩
          intro hpm
          rcases List.mem_cons.mp hpm with hpq | hpr
          · subst hpq
            rw [hq] at hsome
            cases hsome
          · exact (ih r hr p hps).2 t hsome hlt hpr
    | some tb =>
      obtain ⟨t0, aware⟩ := tb
      simp only [filter_by_date_go, hq] at h
      cases aware with
      | false => exact absurd h (by simp)
      | true =>
        simp only [if_true] at h
        by_cases hct : cutoff ≤ t0
        · rw [if_pos hct] at h
          cases hr : filter_by_date_go parse cutoff ps with
          | error e =>
            rw [hr] at h
            exact absurd h (by simp)
          | ok r =>
            rw [hr] at h
            injection h with h'
            subst h'
            rcases List.mem_cons.mp hmem with hpq | hps
            · subst hpq
              refine ⟨fun hn => ?_, fun t hsome hlt => ?_⟩
              · rw [hq] at hn
                cases hn
              · rw [hq] at hsome
                injection hsome with hs
                injection hs with hs1 _
                omega
            · refine ⟨fun hn => List.mem_cons_of_mem q ((ih r hr p hps).1 hn),
                fun t hsome hlt => ?_⟩
              intro hpm
              rcases List.mem_cons.mp hpm with hpq | hpr
              · subst hpq
                rw [hq] at hsome
                injection hsome with hs
                injection hs with hs1 _
                omega
              · exact (ih r hr p hps).2 t hsome hlt hpr
        · rw [if_neg hct] at h
          rcases List.mem_cons.mp hmem with hpq | hps
          · subst hpq
            refine ⟨fun hn => ?_, fun t hsome hlt hpm => ?_⟩
            · rw [hq] at hn
              cases hn
            · have : p ∈ ps := (filter_by_date_go_sublist parse cutoff ps out h).mem hpm
              exact (ih out h p this).2 t hsome hlt hpm
          · exact ih out h p hps

/-- Fail-open postcondition of the recency filter: every paper of the
input whose Z-normalized published string fails to parse appears in the
output, and every paper whose published string parses to an aware
instant strictly before the cutoff does not. -/
def recency_claim (parse : String → Option (Int × Bool)) (now days : Int)
    (papers out : List Paper) : Prop :=
  ∀ p ∈ papers,
    (parse (pyReplace ("Z") ("+00:00") p.published) = none → p ∈ out) ∧
    (∀ t, parse (pyReplace ("Z") ("+00:00") p.published) = some (t, true) →
      t < now - days * secondsPerDay → p ∉ out)

/-- C2: for positive days, on any run of filter_by_date that returns a
list, a paper whose published field does not parse is kept (fail-open)
and a paper whose published field parses to an instant strictly before
now minus the window is dropped. -/
theorem claim_C2_fail_open_recency (parse : String → Option (Int × Bool)) (now days : Int)
    (papers out : List Paper) (hdays : 0 < days)
    (hok : filter_by_date parse now days papers = .ok out) :
    recency_claim parse now days papers out := by
  have hd : ¬ days ≤ 0 := by omega
  rw [filter_by_date, if_neg hd] at hok
  exact filter_by_date_go_spec parse _ papers out hok

/-- Model of `datetime.fromisoformat` restricted to the concrete date
strings used by the witnesses below; the Bool records whether the
parsed value carries timezone information (a bare `T`-timestamp with no
offset parses to a naive value). -/
def parse_demo (s : String) : Option (Int × Bool) :=
  if s = "2024-01-15T12:00:00" then some (1705320000, false)
  else if s = "2024-01-10T00:00:00+00:00" then some (1704844800, true)
  else if s = "2024-01-21T00:00:00+00:00" then some (1705795200, true)
  else none

/-- Concrete paper published before the 7-day window. -/
def paper_old : Paper :=
  { arxiv_id := "2401.00001", title := "Old", authors := [], abstract := ""
    categories := [], published := "2024-01-10T00:00:00Z", updated := ""
    arxiv_url := "", pdf_url := "" }

/-- Concrete paper with an unparsable published field. -/
def paper_bad : Paper :=
  { arxiv_id := "2401.00002", title := "Bad date", authors := [], abstract := ""
    categories := [], published := "not-a-date", updated := ""
    arxiv_url := "", pdf_url := "" }

/-- Concrete paper published inside the 7-day window. -/
def paper_new : Paper :=
  { arxiv_id := "2401.00003", title := "New", authors := [], abstract := ""
    categories := [], published := "2024-01-21T00:00:00Z", updated := ""
    arxiv_url := "", pdf_url := "" }

/-- Concrete paper whose published string parses to a timezone-naive
value. -/
def paper_naive : Paper :=
  { arxiv_id := "2401.00004", title := "Naive", authors := [], abstract := ""
    categories := [], published := "2024-01-15T12:00:00", updated := ""
    arxiv_url := "", pdf_url := "" }

/-- C2 witness: at now = 2024-01-22T00:00:00Z with a 7-day window, the
out-of-window paper is dropped while the unparsable one is kept. -/
theorem claim_C2_witness :
    (0 : Int) < 7 ∧
    recency_claim parse_demo 1705881600 7 [paper_old, paper_bad, paper_new]
      [paper_bad, paper_new] :=
  ⟨by decide,
    claim_C2_fail_open_recency parse_demo 1705881600 7 _ _ (by decide) (by rfl)⟩

/-- C9 is refuted by the code: a published string that parses as a
timestamp without timezone information makes the Python comparison
`pub_date >= cutoff` raise `TypeError` (only `ValueError` and
`AttributeError` are caught), so filter_by_date does not return a
list.  The run below fails on the naive paper even though days > 0. -/
theorem claim_C9_naive_timestamp_raises :
    filter_by_date parse_demo 1705881600 7 [paper_old, paper_naive] = .error () := by
  rfl

/-- C6: filter_by_date (whenever it returns a list) and filter_unseen
both return subsequences of their input, in the input's order. -/
theorem claim_C6_order_preserving :
    (∀ (parse : String → Option (Int × Bool)) (now days : Int) (papers out : List Paper),
        filter_by_date parse now days papers = .ok out → out.Sublist papers) ∧
    ∀ (papers : HistPapers) (candidates : List Paper),
      (filter_unseen papers candidates).Sublist candidates := by
  constructor
  · intro parse now days papers out h
    rw [filter_by_date] at h
    by_cases hd : days ≤ 0
    · rw [if_pos hd] at h
      injection h with h'
      subst h'
      exact List.Sublist.refl _
    · rw [if_neg hd] at h
      exact filter_by_date_go_sublist parse _ papers out h
  · intro papers candidates
    exact List.filter_sublist candidates

/-- C6 witness: a concrete filter_by_date run yields a subsequence, as
does a concrete filter_unseen run. -/
theorem claim_C6_witness :
    ([paper_bad, paper_new] : List Paper).Sublist [paper_old, paper_bad, paper_new] ∧
    (filter_unseen [] [paper_old]).Sublist [paper_old] :=
  ⟨claim_C6_order_preserving.1 parse_demo 1705881600 7 _ _ (by rfl),
    claim_C6_order_preserving.2 [] [paper_old]⟩

lemma collect_stale_ok (parse : String → Option (Int × Bool)) (cutoff : Int) :
    ∀ (papers : HistPapers) (ids : List String),
      collect_stale parse cutoff papers = .ok ids →
      ids = (papers.filter fun e => entry_stale parse cutoff e.2).map Prod.fst := by
  intro papers
  induction papers with
  | nil =>
    intro ids h
    simp only [collect_stale] at h
    injection h with h'
    subst h'
    rfl
  | cons e rest ih =>
    intro ids h
    cases hsa : e.2.seen_at with
    | none =>
      simp only [collect_stale, entry_check, hsa] at h
      cases hr : collect_stale parse cutoff rest with
      | error u =>
        rw [hr] at h
        exact absurd h (by simp)
      | ok ids' =>
        rw [hr] at h
        simp only [Bool.false_eq_true, if_false, Except.ok.injEq] at h
        subst h
        simp [List.filter_cons, entry_stale, hsa, ih ids' hr]
    | some s =>
      cases hp : parse s with
      | none =>
        simp only [collect_stale, entry_check, hsa, hp] at h
        cases hr : collect_stale parse cutoff rest with
        | error u =>
          rw [hr] at h
          exact absurd h (by simp)
        | ok ids' =>
          rw [hr] at h
          simp only [Bool.false_eq_true, if_false, Except.ok.injEq] at h
          subst h
          simp [List.filter_cons, entry_stale, hsa, hp, ih ids' hr]
      | some tb =>
        obtain ⟨t, aware⟩ := tb
        cases aware with
        | true => simp [collect_stale, entry_check, hsa, hp] at h
        | false =>
          simp only [collect_stale, entry_check, hsa, hp] at h
          cases hr : collect_stale parse cutoff rest with
          | error u =>
            rw [hr] at h
            simp at h
          | ok ids' =>
            rw [hr] at h
            by_cases hct : t < cutoff
            · simp [hct] at h
              subst h
              simp [List.filter_cons, entry_stale, hsa, hp, hct, ih ids' hr]
            · simp [hct] at h
              subst h
              simp [List.filter_cons, entry_stale, hsa, hp, hct, ih ids' hr]

/-- Retention postcondition of cleanup_old_entries on a run that
returns: it removes exactly the entries whose seen_at parses strictly
older than the cutoff (so an entry one day past the retention period
goes, an entry exactly at it stays, and entries with a missing or
unparsable seen_at are untouched), reports the removed count, and
persists exactly when that count is positive; with non-positive
retention it is a no-op returning 0 without persisting. -/
def cleanup_ok_claim (parse : String → Option (Int × Bool)) (now retention_days : Int)
    (papers : HistPapers) (res : HistPapers × Nat × Bool) : Prop :=
  (0 < retention_days →
    res.1 = papers.filter
        (fun e => !(entry_stale parse (now - retention_days * secondsPerDay) e.2)) ∧
    res.2.1 = (papers.filter
        fun e => entry_stale parse (now - retention_days * secondsPerDay) e.2).length ∧
    (res.2.2 = true ↔ 0 < res.2.1) ∧
    (∀ e ∈ papers, ∀ s, e.2.seen_at = some s →
      parse s = some (now - (retention_days + 1) * secondsPerDay, false) →
      e ∉ res.1) ∧
    (∀ e ∈ papers, ∀ s, e.2.seen_at = some s →
      parse s = some (now - retention_days * secondsPerDay, false) →
      e ∈ res.1) ∧
    (∀ e ∈ papers, (e.2.seen_at = none ∨ ∃ s, e.2.seen_at = some s ∧ parse s = none) →
      e ∈ res.1)) ∧
  (retention_days ≤ 0 → res = (papers, 0, false))

/-- Retention correctness of cleanup_old_entries on every run that
returns a result: for any ledger whose papers mapping has dict-unique
keys, the result removes exactly the stale entries, counts them, and
persists iff any were removed.  (The runs that return no result are the
aware-seen_at `TypeError` crashes recorded as the C3 code bug.) -/
theorem cleanup_retention_of_ok (parse : String → Option (Int × Bool))
    (now retention_days : Int) (papers : HistPapers) (res : HistPapers × Nat × Bool)
    (hnd : (papers.map Prod.fst).Nodup)
    (hok : cleanup_old_entries parse now retention_days papers = .ok res) :
    cleanup_ok_claim parse now retention_days papers res := by
  constructor
  · intro hret
    have hneg : ¬ retention_days ≤ 0 := by omega
    rw [cleanup_old_entries, if_neg hneg] at hok
    set cutoff := now - retention_days * secondsPerDay with hcut
    set stale : String × LedgerEntry → Bool := fun e => entry_stale parse cutoff e.2
      with hstale
    have hres : res = (papers.filter fun e => !(((papers.filter stale).map Prod.fst).contains e.1),
        ((papers.filter stale).map Prod.fst).length,
        !(((papers.filter stale).map Prod.fst).isEmpty)) := by
      cases hc : collect_stale parse cutoff papers with
      | error u =>
        rw [hc] at hok
        exact absurd hok (by simp)
      | ok to_remove =>
        rw [hc] at hok
        injection hok with h'
        rw [← h', collect_stale_ok parse cutoff papers to_remove hc, hstale]
    have hcontains : ∀ e ∈ papers,
        ((papers.filter stale).map Prod.fst).contains e.1 = stale e := by
      intro e he
      by_cases hst : stale e = true
      · rw [hst]
        exact List.elem_iff.mpr (List.mem_map_of_mem Prod.fst (List.mem_filter.mpr ⟨he, hst⟩))
      · have hst' : stale e = false := by
          cases hb : stale e
          · rfl
          · exact absurd hb hst
        rw [hst']
        by_contra hcon
        have hmem : e.1 ∈ (papers.filter stale).map Prod.fst := by
          cases hb : ((papers.filter stale).map Prod.fst).contains e.1
          · rw [hb] at hcon
            exact absurd rfl hcon
          · exact List.elem_iff.mp hb
        rcases List.mem_map.mp hmem with ⟨e', he', hkey⟩
        rcases List.mem_filter.mp he' with ⟨he'p, hst2⟩
        have : e' = e := List.inj_on_of_nodup_map hnd he'p he hkey
        rw [this] at hst2
        rw [hst2] at hst'
        cases hst'
    have hfilter : (papers.filter fun e => !(((papers.filter stale).map Prod.fst).contains e.1))
        = papers.filter fun e => !(stale e) := by
      apply List.filter_congr
      intro e he
      rw [hcontains e he]
    refine ⟨by rw [hres, hfilter], by rw [hres]; simp, ?_, ?_, ?_, ?_⟩
    · rw [hres]
      simp only []
      constructor
      · intro hne
        cases hl : (papers.filter stale).map Prod.fst with
        | nil => rw [hl] at hne; cases hne
        | cons a l => simp
      · intro hpos
        cases hl : (papers.filter stale).map Prod.fst with
        | nil => rw [hl] at hpos; cases hpos
        | cons a l => rfl
    · intro e he s hseen hparse
      have hst : stale e = true := by
        rw [hstale]
        simp only [entry_stale, hseen, hparse]
        have : now - (retention_days + 1) * secondsPerDay < cutoff := by
          rw [hcut]
          simp only [secondsPerDay]
          omega
        simp [this]
      rw [hres, hfilter]
      simp only [List.mem_filter, hst]
      rintro ⟨-, hfalse⟩
      cases hfalse
    · intro e he s hseen hparse
      have hst : stale e = false := by
        rw [hstale]
        simp only [entry_stale, hseen, hparse]
        have : ¬ (now - retention_days * secondsPerDay < cutoff) := by
          rw [hcut]
          exact lt_irrefl _
        simp [this]
      rw [hres, hfilter]
      exact List.mem_filter.mpr ⟨he, by rw [hst]; rfl⟩
    · intro e he hnone
      have hst : stale e = false := by
        rw [hstale]
        rcases hnone with hn | ⟨s, hs, hps⟩
        · simp [entry_stale, hn]
        · simp [entry_stale, hs, hps]
      rw [hres, hfilter]
      exact List.mem_filter.mpr ⟨he, by rw [hst]; rfl⟩
  · intro hret
    rw [cleanup_old_entries, if_pos hret] at hok
    injection hok with h'
    exact h'.symm

/-- Concrete ledger: one entry two days old, one exactly one day old,
one with a missing seen_at, one unparsable. -/
def papers_demo : HistPapers :=
  [("2401.00001", { title := "stale", seen_at := some "day2ago" }),
   ("2401.00002", { title := "kept", seen_at := some "day1ago" }),
   ("2401.00003", { title := "no-date", seen_at := none }),
   ("2401.00004", { title := "junk-date", seen_at := some "garbled" })]

/-- Model of `datetime.fromisoformat` on the ledger timestamps used
below; the Bool records whether the parsed value carries timezone
information (an offset-suffixed string parses to an aware value, the
manager's own `datetime.now().isoformat()` output to a naive one). -/
def parse_seen_demo (s : String) : Option (Int × Bool) :=
  if s = "day2ago" then some (-172800, false)
  else if s = "day1ago" then some (-86400, false)
  else if s = "2024-01-01T00:00:00+00:00" then some (1704067200, true)
  else none

/-- Concrete ledger whose single entry stores a timezone-aware
seen_at, as a hand-edited history file can. -/
def papers_aware : HistPapers :=
  [("2401.00005", { title := "T", seen_at := some "2024-01-01T00:00:00+00:00" })]

/-- C3 is refuted by the code on ledger states whose seen_at carries a
timezone offset: `datetime.fromisoformat` then succeeds with an aware
value, the comparison `seen_at < cutoff` against the naive cutoff
`datetime.now() - timedelta(...)` raises `TypeError`, and the
`except (KeyError, ValueError)` clause at src/history_manager.py line
123 does not catch it, so cleanup_old_entries crashes instead of
removing exactly the stale entries and returning their number.  The
run below fails with retention_days = 90 > 0. -/
theorem claim_C3_aware_seen_at_raises :
    cleanup_old_entries parse_seen_demo 1705881600 90 papers_aware = .error () := by
  rfl

/-- Supporting check that the normal-return characterization is not
vacuous: a concrete naive-timestamp ledger run removes the two-day-old
entry, keeps the one-day-old one at the inclusive boundary, leaves the
missing and unparsable entries, reports one removal and persists. -/
theorem cleanup_retention_of_ok_demo :
    cleanup_ok_claim parse_seen_demo 0 1 papers_demo
      ([("2401.00002", { title := "kept", seen_at := some "day1ago" }),
        ("2401.00003", { title := "no-date", seen_at := none }),
        ("2401.00004", { title := "junk-date", seen_at := some "garbled" })], 1, true) :=
  cleanup_retention_of_ok parse_seen_demo 0 1 papers_demo _ (by decide) (by rfl)

/-- C7: whenever ClaudeRunner.run reports failure — non-zero exit,
timeout, missing CLI, or any other exception — main exits with code 1
and the ledger's papers mapping is exactly what it was before the run;
and each of those outcomes does yield success = false. -/
theorem claim_C7_failure_marks_nothing (res : CliResult) (extracted_ids : List String)
    (unseen_papers : List Paper) (papers : HistPapers) (now : String)
    (hfail : (claude_run res extracted_ids).1 = false) :
    main_after_run (claude_run res extracted_ids) unseen_papers papers now = (1, papers) ∧
    (∀ rc : Int, rc ≠ 0 → (claude_run (.completed rc) extracted_ids).1 = false) ∧
    (claude_run .timedOut extracted_ids).1 = false ∧
    (claude_run .notFound extracted_ids).1 = false ∧
    (claude_run .otherError extracted_ids).1 = false := by
  refine ⟨?_, ?_, rfl, rfl, rfl⟩
  · rw [main_after_run, hfail]
    rfl
  · intro rc hrc
    simp [claude_run, hrc]

/-- C7 witness: a timed-out run exits 1 and leaves the concrete ledger
untouched. -/
theorem claim_C7_witness :
    main_after_run (claude_run .timedOut ["2401.00001"]) [paper_new] papers_demo "now"
      = (1, papers_demo) ∧
    (∀ rc : Int, rc ≠ 0 → (claude_run (.completed rc) ["2401.00001"]).1 = false) ∧
    (claude_run .timedOut ["2401.00001"]).1 = false ∧
    (claude_run .notFound ["2401.00001"]).1 = false ∧
    (claude_run .otherError ["2401.00001"]).1 = false :=
  claim_C7_failure_marks_nothing .timedOut ["2401.00001"] [paper_new] papers_demo ("now")
    (by decide)

/-- Fallback postcondition of the ledger load: the loaded state is the
empty ledger, and is_seen, mark_seen, filter_unseen and
cleanup_old_entries on it behave exactly as on the empty ledger
(nothing seen, first insertion appended, every candidate kept, nothing
cleaned) instead of failing. -/
def load_fallback_claim (parseJson : String → Option HistData)
    (content : Option String) : Prop :=
  history_load parseJson content = emptyHist ∧
  (∀ arxiv_id, is_seen (history_load parseJson content).papers arxiv_id = false) ∧
  (∀ candidates, filter_unseen (history_load parseJson content).papers candidates
    = candidates) ∧
  (∀ arxiv_id title now, mark_seen (history_load parseJson content).papers arxiv_id title now
    = [(arxiv_id, { title := title, seen_at := some now })]) ∧
  (∀ parse time retention_days,
    cleanup_old_entries parse time retention_days (history_load parseJson content).papers
      = .ok ((history_load parseJson content).papers, 0, false))

/-- C8: a missing history file or malformed content yields the empty
ledger, and every subsequent operation behaves as on the empty ledger
rather than raising. -/
theorem claim_C8_load_never_fatal (parseJson : String → Option HistData)
    (content : Option String)
    (hbad : content = none ∨ ∃ s, content = some s ∧ parseJson s = none) :
    load_fallback_claim parseJson content := by
  have hload : history_load parseJson content = emptyHist := by
    rcases hbad with hnone | ⟨s, hsome, hparse⟩
    · rw [hnone]
      rfl
    · rw [hsome]
      simp [history_load, hparse]
  refine ⟨hload, ?_, ?_, ?_, ?_⟩
  · intro arxiv_id
    rw [hload]
    rfl
  · intro candidates
    rw [hload]
    simp [filter_unseen, is_seen, emptyHist]
  · intro arxiv_id title now
    rw [hload]
    rfl
  · intro parse time retention_days
    rw [hload]
    simp only [cleanup_old_entries, emptyHist]
    by_cases hr : retention_days ≤ 0
    · rw [if_pos hr]
    · rw [if_neg hr]
      rfl

/-- C8 witness: malformed history content (json parse failure) loads as
the empty ledger with all operations intact. -/
theorem claim_C8_witness :
    load_fallback_claim (fun _ => none) (some ("corrupt-json")) :=
  claim_C8_load_never_fatal (fun _ => none) (some ("corrupt-json"))
    (Or.inr ⟨"corrupt-json", rfl, rfl⟩)

end PaperDigest
